import Mathlib

/-!
Verification of the HPKE and MLS-framing core of the mlspp repository.

The C++ source is shallowly embedded: `bytes` becomes `List Nat` (one entry
per octet), the abstract KEM/KDF/AEAD primitives become structures of
functions, machine integers become `Nat` with explicit bounds, and throwing
code returns `Except`.
-/

/-- Byte strings: one natural number per octet. -/
abbrev Bytes := List Nat

/-- `i2osp(n, k)`: big-endian encoding of `n` in exactly `k` octets. -/
def i2osp (n : Nat) (k : Nat) : Bytes :=
  (List.range k).map (fun i => n / 256 ^ (k - 1 - i) % 256)

/-- Modelled from the spec: bytewise XOR of two byte strings (the `bytes`
XOR operator used by `Context::current_nonce` is declared outside src/). -/
def xorBytes (a b : Bytes) : Bytes := List.zipWith Nat.xor a b

/-- A `tls::vector<k>` encoding: a `k`-byte big-endian length prefix
followed by the contents. -/
def lenEnc (k : Nat) (v : Bytes) : Bytes := i2osp v.length k ++ v

/-- The maximum of the C++ `uint64_t` sequence counter. -/
def uint64Max : Nat := 2 ^ 64 - 1

theorem uint64Max_lit : uint64Max = 18446744073709551615 := by
  norm_num [uint64Max]

/-! ### HPKE labels (ASCII constants from the top of hpke.cpp) -/

/-- ASCII of "exp". -/
def label_exp : Bytes := [101, 120, 112]

/-- ASCII of "HPKE". -/
def label_hpke : Bytes := [72, 80, 75, 69]

/-- ASCII of "HPKE-05 " (trailing space). -/
def label_hpke_05 : Bytes := [72, 80, 75, 69, 45, 48, 53, 32]

/-- ASCII of "info_hash". -/
def label_info_hash : Bytes := [105, 110, 102, 111, 95, 104, 97, 115, 104]

/-- ASCII of "key". -/
def label_key : Bytes := [107, 101, 121]

/-- ASCII of "nonce". -/
def label_nonce : Bytes := [110, 111, 110, 99, 101]

/-- ASCII of "psk_hash". -/
def label_psk_hash : Bytes := [112, 115, 107, 95, 104, 97, 115, 104]

/-- ASCII of "psk_id_hash". -/
def label_psk_id_hash : Bytes := [112, 115, 107, 95, 105, 100, 95, 104, 97, 115, 104]

/-- ASCII of "sec". -/
def label_sec : Bytes := [115, 101, 99]

/-- ASCII of "secret". -/
def label_secret : Bytes := [115, 101, 99, 114, 101, 116]

/-! ### Primitive interfaces

The concrete HKDF / AEAD cipher implementations live outside src/, so the
primitives are carried as structures of functions; everything derived from
them in hpke.cpp is embedded exactly. -/

/-- The KDF capability interface: `extract`, `expand`, `hash_size`. -/
structure KDF where
  extract : Bytes → Bytes → Bytes
  expand : Bytes → Bytes → Nat → Bytes
  hash_size : Nat

/-- `KDF::labeled_extract` from hpke.cpp. -/
def KDF.labeled_extract (kdf : KDF) (suite salt label ikm : Bytes) : Bytes :=
  kdf.extract salt (label_hpke_05 ++ suite ++ label ++ ikm)

/-- `KDF::labeled_expand` from hpke.cpp. -/
def KDF.labeled_expand (kdf : KDF) (suite prk label info : Bytes) (size : Nat) : Bytes :=
  kdf.expand prk (i2osp size 2 ++ label_hpke_05 ++ suite ++ label ++ info) size

/-- The AEAD capability interface. `openAead` returns absence on
authentication failure. -/
structure AEAD where
  key_size : Nat
  nonce_size : Nat
  sealAead : Bytes → Bytes → Bytes → Bytes → Bytes
  openAead : Bytes → Bytes → Bytes → Bytes → Option Bytes

/-- Errors raised by the embedded HPKE code. -/
inductive HpkeError where
  | sequenceOverflow
  | invalidPSKInputs
deriving DecidableEq

/-! ### Encryption contexts -/

/-- The HPKE `Context`: key material plus the sequence counter. -/
structure Context where
  suite : Bytes
  key : Bytes
  nonce : Bytes
  exporter_secret : Bytes
  kdf : KDF
  aead : AEAD
  seq : Nat

/-- `Context::Context`: the constructor initializes `seq` to 0. -/
def Context.make (suite key nonce exporter_secret : Bytes) (kdf : KDF) (aead : AEAD) :
    Context :=
  ⟨suite, key, nonce, exporter_secret, kdf, aead, 0⟩

/-- `Context::current_nonce`: `i2osp(seq, nonce_size) XOR nonce`. -/
def Context.current_nonce (c : Context) : Bytes :=
  xorBytes (i2osp c.seq c.aead.nonce_size) c.nonce

/-- `Context::increment_seq`: throws on `uint64` overflow, otherwise
steps the counter. -/
def Context.increment_seq (c : Context) : Except HpkeError Context :=
  if c.seq = uint64Max then .error .sequenceOverflow
  else .ok { c with seq := c.seq + 1 }

/-- `Context::do_export`. -/
def Context.do_export (c : Context) (exporter_context : Bytes) (size : Nat) : Bytes :=
  c.kdf.labeled_expand c.suite c.exporter_secret label_sec exporter_context size

/-- `SenderContext::seal`: AEAD-seal under the current nonce, then step the
counter. The second component is the context state after the call; when the
counter step throws, the `seq += 1` never runs, so the state is unchanged. -/
def Context.sealMsg (c : Context) (aad pt : Bytes) : Except HpkeError Bytes × Context :=
  let ct := c.aead.sealAead c.key c.current_nonce aad pt
  match c.increment_seq with
  | .error e => (.error e, c)
  | .ok c' => (.ok ct, c')

/-- `ReceiverContext::open`: AEAD-open under the current nonce, then step
the counter (also when the AEAD returns absence). -/
def Context.openMsg (c : Context) (aad ct : Bytes) :
    Except HpkeError (Option Bytes) × Context :=
  let maybe_pt := c.aead.openAead c.key c.current_nonce aad ct
  match c.increment_seq with
  | .error e => (.error e, c)
  | .ok c' => (.ok maybe_pt, c')

/-- `n` consecutive `seal` calls on a context, propagating the first failure. -/
def sealIter (aad pt : Bytes) : Nat → Context → Except HpkeError Context
  | 0, c => .ok c
  | n + 1, c =>
    match c.sealMsg aad pt with
    | (.ok _, c') => sealIter aad pt n c'
    | (.error e, _) => .error e

/-! ### HPKE orchestrator -/

/-- The four HPKE modes. -/
inductive Mode where
  | base
  | psk
  | auth
  | auth_psk
deriving DecidableEq

/-- The mode byte (spec section 3). -/
def Mode.toByte : Mode → Nat
  | .base => 0
  | .psk => 1
  | .auth => 2
  | .auth_psk => 3

/-- `suite_id` from hpke.cpp: `"HPKE" || i2osp(kem,2) || i2osp(kdf,2) || i2osp(aead,2)`. -/
def suite_id (kem_id kdf_id aead_id : Nat) : Bytes :=
  label_hpke ++ i2osp kem_id 2 ++ i2osp kdf_id 2 ++ i2osp aead_id 2

/-- The HPKE orchestrator: precomputed suite id plus the two symmetric
primitives used by the key schedule. -/
structure HPKE where
  suite : Bytes
  kdf : KDF
  aead : AEAD

/-- `HPKE::verify_psk_inputs` from hpke.cpp. -/
def HPKE.verify_psk_inputs (mode : Mode) (psk psk_id : Bytes) : Bool :=
  let got_psk := !(psk == ([] : Bytes))
  let got_psk_id := !(psk_id == ([] : Bytes))
  if got_psk != got_psk_id then false
  else
    (!got_psk && (mode == .base || mode == .auth)) ||
      (got_psk && (mode == .psk || mode == .auth_psk))

/-- `HPKE::key_schedule` from hpke.cpp. -/
def HPKE.key_schedule (h : HPKE) (mode : Mode) (shared_secret info psk psk_id : Bytes) :
    Except HpkeError Context :=
  if !HPKE.verify_psk_inputs mode psk psk_id then .error .invalidPSKInputs
  else
    let psk_id_hash := h.kdf.labeled_extract h.suite [] label_psk_id_hash psk_id
    let info_hash := h.kdf.labeled_extract h.suite [] label_info_hash info
    let key_schedule_context := [mode.toByte] ++ psk_id_hash ++ info_hash
    let psk_hash := h.kdf.labeled_extract h.suite [] label_psk_hash psk
    let secret := h.kdf.labeled_extract h.suite psk_hash label_secret shared_secret
    let key := h.kdf.labeled_expand h.suite secret label_key key_schedule_context
      h.aead.key_size
    let nonce := h.kdf.labeled_expand h.suite secret label_nonce key_schedule_context
      h.aead.nonce_size
    let exporter_secret := h.kdf.labeled_expand h.suite secret label_exp
      key_schedule_context h.kdf.hash_size
    .ok (Context.make h.suite key nonce exporter_secret h.kdf h.aead)

/-! ### Spec-side key-schedule formulas

These definitions are written from the spec's equations in section 4.2 (not
from the source), to be compared with `HPKE.key_schedule` in the refinement
theorem for the key schedule. -/

/-- From the spec: `labeled_extract(suite_id, salt, label, ikm) =
extract(salt, "HPKE-05 " || suite_id || label || ikm)`. -/
def SpecKS.labeledExtract (kdf : KDF) (suite salt label ikm : Bytes) : Bytes :=
  kdf.extract salt (label_hpke_05 ++ suite ++ label ++ ikm)

/-- From the spec: `labeled_expand(suite_id, prk, label, info, L) =
expand(prk, I2OSP(L,2) || "HPKE-05 " || suite_id || label || info, L)`. -/
def SpecKS.labeledExpand (kdf : KDF) (suite prk label info : Bytes) (L : Nat) : Bytes :=
  kdf.expand prk (i2osp L 2 ++ label_hpke_05 ++ suite ++ label ++ info) L

/-- From the spec: `ks_context = mode_byte || psk_id_hash || info_hash`. -/
def SpecKS.ksContext (kdf : KDF) (suite : Bytes) (mode : Mode) (info psk_id : Bytes) :
    Bytes :=
  [mode.toByte] ++ SpecKS.labeledExtract kdf suite [] label_psk_id_hash psk_id
    ++ SpecKS.labeledExtract kdf suite [] label_info_hash info

/-- From the spec: `secret = labeled_extract(suite, psk_hash, "secret",
shared_secret)` with `psk_hash = labeled_extract(suite, "", "psk_hash", psk)`. -/
def SpecKS.secret (kdf : KDF) (suite shared_secret psk : Bytes) : Bytes :=
  SpecKS.labeledExtract kdf suite
    (SpecKS.labeledExtract kdf suite [] label_psk_hash psk) label_secret shared_secret

/-- From the spec: `key = labeled_expand(suite, secret, "key", ks_context,
aead.key_size)`. -/
def SpecKS.key (h : HPKE) (mode : Mode) (shared_secret info psk psk_id : Bytes) : Bytes :=
  SpecKS.labeledExpand h.kdf h.suite (SpecKS.secret h.kdf h.suite shared_secret psk)
    label_key (SpecKS.ksContext h.kdf h.suite mode info psk_id) h.aead.key_size

/-- From the spec: `nonce_base = labeled_expand(suite, secret, "nonce",
ks_context, aead.nonce_size)`. -/
def SpecKS.nonceBase (h : HPKE) (mode : Mode) (shared_secret info psk psk_id : Bytes) :
    Bytes :=
  SpecKS.labeledExpand h.kdf h.suite (SpecKS.secret h.kdf h.suite shared_secret psk)
    label_nonce (SpecKS.ksContext h.kdf h.suite mode info psk_id) h.aead.nonce_size

/-- From the spec: `exporter_secret = labeled_expand(suite, secret, "exp",
ks_context, kdf.hash_size)`. -/
def SpecKS.exporterSecret (h : HPKE) (mode : Mode) (shared_secret info psk psk_id : Bytes) :
    Bytes :=
  SpecKS.labeledExpand h.kdf h.suite (SpecKS.secret h.kdf h.suite shared_secret psk)
    label_exp (SpecKS.ksContext h.kdf h.suite mode info psk_id) h.kdf.hash_size

/-! ### MLS framing (messages.cpp)

`tls::ostream` writes fields left to right, so each serializer is embedded
as the concatenation of its fields' encodings.  Types declared outside src/
(GroupContext, Sender, the tree and extension wire formats, MAC) are carried
as their wire encodings, as the spec treats them: opaque byte strings with a
known framing. -/

/-- Errors raised by the embedded MLS code. -/
inductive MlsError where
  | invalidParameter
  | protocolError
deriving DecidableEq

/-- A leaf key package, reduced to what messages.cpp reads from it:
the credential's signature public key. -/
structure KeyPackage where
  credential_pub : Bytes
deriving DecidableEq

/-- The ratchet tree, consumed as an opaque serializable object with a
`key_package(index)` lookup (spec section 1): `enc` is its wire encoding,
`kps` the per-leaf key packages. -/
structure TreeKEMPublicKey where
  enc : Bytes
  kps : List (Option KeyPackage)
deriving DecidableEq

/-- `TreeKEMPublicKey::key_package`: the key package at a leaf, absent when
the leaf is blank. -/
def TreeKEMPublicKey.key_package (t : TreeKEMPublicKey) (i : Nat) : Option KeyPackage :=
  t.kps.getD i none

/-- `GroupInfo` from messages.h/messages.cpp.  `extensions` is carried as
the wire encoding of the `ExtensionList`. -/
structure GroupInfo where
  suite : Nat
  group_id : Bytes
  epoch : Nat
  tree : TreeKEMPublicKey
  confirmed_transcript_hash : Bytes
  interim_transcript_hash : Bytes
  extensions : Bytes
  confirmation : Bytes
  signer_index : Nat
  signature : Bytes
deriving DecidableEq

/-- `GroupInfo::to_be_signed` from messages.cpp: `len1(group_id) || epoch ||
tree || len1(confirmed_transcript_hash) || len1(interim_transcript_hash) ||
len1(confirmation) || signer_index`. -/
def GroupInfo.to_be_signed (gi : GroupInfo) : Bytes :=
  lenEnc 1 gi.group_id ++ i2osp gi.epoch 8 ++ gi.tree.enc
    ++ lenEnc 1 gi.confirmed_transcript_hash
    ++ lenEnc 1 gi.interim_transcript_hash
    ++ lenEnc 1 gi.confirmation
    ++ i2osp gi.signer_index 4

/-- A signature private key, reduced to what messages.cpp reads from it:
the matching public key bytes (the signing function itself is an external
primitive, passed as `sigSign`). -/
structure SignaturePrivateKey where
  public_key : Bytes
deriving DecidableEq

/-- `GroupInfo::sign`: requires a populated leaf whose credential key matches
the private key, then sets `signer_index` and signs `to_be_signed`.
`sigSign priv suite msg` stands for `priv.sign(suite, msg)`. -/
def GroupInfo.signGI (sigSign : SignaturePrivateKey → Nat → Bytes → Bytes)
    (gi : GroupInfo) (index : Nat) (priv : SignaturePrivateKey) :
    Except MlsError GroupInfo :=
  match gi.tree.key_package index with
  | none => .error .invalidParameter
  | some kp =>
    if kp.credential_pub ≠ priv.public_key then .error .invalidParameter
    else
      let gi' := { gi with signer_index := index }
      .ok { gi' with signature := sigSign priv gi'.suite gi'.to_be_signed }

/-- `GroupInfo::verify`: raises on a blank leaf at `signer_index`, else
checks the signature over `to_be_signed` under the leaf credential's public
key.  `sigVerify pub suite msg sig` stands for `pub.verify(suite, msg, sig)`. -/
def GroupInfo.verifyGI (sigVerify : Bytes → Nat → Bytes → Bytes → Bool)
    (gi : GroupInfo) : Except MlsError Bool :=
  match gi.tree.key_package gi.signer_index with
  | none => .error .invalidParameter
  | some kp =>
    .ok (sigVerify kp.credential_pub gi.suite gi.to_be_signed gi.signature)

/-! ### Welcome (messages.cpp) -/

/-- ASCII of "group info". -/
def label_group_info : Bytes := [103, 114, 111, 117, 112, 32, 105, 110, 102, 111]

/-- What `Welcome` reads from a `CipherSuite`: the KDF/AEAD sizes, the MLS
`expand_with_label`, and the suite's AEAD.  All are primitives declared
outside src/, carried as functions. -/
structure CipherSuiteOps where
  hash_size : Nat
  key_size : Nat
  nonce_size : Nat
  expand_with_label : Bytes → Bytes → Bytes → Nat → Bytes
  aead_seal : Bytes → Bytes → Bytes → Bytes → Bytes
  aead_open : Bytes → Bytes → Bytes → Bytes → Option Bytes

/-- `Welcome::group_info_key_nonce` from messages.cpp: expand
`"group info"` from the epoch secret, then `"key"` and `"nonce"` from the
resulting secret. -/
def group_info_key_nonce (cs : CipherSuiteOps) (epoch_secret : Bytes) : Bytes × Bytes :=
  let secret := cs.expand_with_label epoch_secret label_group_info [] cs.hash_size
  let key := cs.expand_with_label secret label_key [] cs.key_size
  let nonce := cs.expand_with_label secret label_nonce [] cs.nonce_size
  (key, nonce)

/-- `Welcome`, reduced to the fields the group-info hand-off uses. -/
structure Welcome where
  cipher_suite : CipherSuiteOps
  encrypted_group_info : Bytes

/-- The `Welcome` constructor from messages.cpp: derive `(key, nonce)` from
the epoch secret and AEAD-seal the marshalled `GroupInfo` with empty AAD.
`marshalGI` stands for `tls::marshal` at `GroupInfo` (declared outside src/). -/
def Welcome.make (cs : CipherSuiteOps) (marshalGI : GroupInfo → Bytes)
    (epoch_secret : Bytes) (group_info : GroupInfo) : Welcome :=
  let kn := group_info_key_nonce cs epoch_secret
  { cipher_suite := cs
    encrypted_group_info := cs.aead_seal kn.1 kn.2 [] (marshalGI group_info) }

/-- `Welcome::decrypt` from messages.cpp: re-derive `(key, nonce)`, AEAD-open
the encrypted group info, raise on absence, else parse the bytes.
`getGI` stands for `tls::get<GroupInfo>` (declared outside src/). -/
def Welcome.decrypt (getGI : Bytes → GroupInfo) (w : Welcome) (epoch_secret : Bytes) :
    Except MlsError GroupInfo :=
  let kn := group_info_key_nonce w.cipher_suite epoch_secret
  match w.cipher_suite.aead_open kn.1 kn.2 [] w.encrypted_group_info with
  | none => .error .protocolError
  | some b => .ok (getGI b)

/-! ### MLSPlaintext (messages.cpp) -/

/-- The content alternatives of an `MLSPlaintext`.  The payload of each
alternative is carried as its wire encoding (the `ApplicationData`,
`Proposal` and `Commit` codecs are declared outside src/). -/
inductive MLSContent where
  | application (data : Bytes)
  | proposal (data : Bytes)
  | commit (data : Bytes)
deriving DecidableEq

/-- The `ContentType` tag byte (spec section 3: application = 1,
proposal = 2, commit = 3). -/
def MLSContent.tag : MLSContent → Nat
  | .application _ => 1
  | .proposal _ => 2
  | .commit _ => 3

/-- The wire encoding of the selected alternative. -/
def MLSContent.payload : MLSContent → Bytes
  | .application d => d
  | .proposal d => d
  | .commit d => d

/-- `tls::variant<ContentType>::encode`: the tag byte, then the payload. -/
def MLSContent.encode (c : MLSContent) : Bytes := c.tag :: c.payload

/-- Modelled from the spec: fixed-width big-endian encoding of the sender
(the `Sender` struct and its codec are declared outside src/). -/
structure Sender where
  sender_type : Nat
  sender : Nat
deriving DecidableEq

/-- Modelled from the spec: the sender's fixed-width encoding. -/
def Sender.encode (s : Sender) : Bytes := i2osp s.sender_type 1 ++ i2osp s.sender 4

/-- Modelled from the spec: the optional confirmation tag's encoding — a
presence octet, then the MAC value (`tls::optional` and `MAC` are declared
outside src/). -/
def encodeOptTag : Option Bytes → Bytes
  | none => [0]
  | some m => 1 :: lenEnc 1 m

/-- `MLSPlaintext`, with the fields the framing claims read.  The
`confirmation_tag` and `membership_tag` MAC values are carried as bytes. -/
structure MLSPlaintext where
  group_id : Bytes
  epoch : Nat
  sender : Sender
  authenticated_data : Bytes
  content : MLSContent
  signature : Bytes
  confirmation_tag : Option Bytes
  membership_tag : Option Bytes
  decrypted : Bool
deriving DecidableEq

/-- `MLSPlaintext::to_be_signed` from messages.cpp: the caller-supplied
group context (carried as its wire encoding), then `len1(group_id)`, the
8-byte epoch, the sender, `len4(authenticated_data)`, and the tagged
content. -/
def MLSPlaintext.to_be_signed (p : MLSPlaintext) (context : Bytes) : Bytes :=
  context ++ lenEnc 1 p.group_id ++ i2osp p.epoch 8 ++ p.sender.encode
    ++ lenEnc 4 p.authenticated_data ++ p.content.encode

/-- `MLSPlaintext::membership_tag_input` from messages.cpp:
`to_be_signed || len2(signature) || confirmation_tag`. -/
def MLSPlaintext.membership_tag_input (p : MLSPlaintext) (context : Bytes) : Bytes :=
  p.to_be_signed context ++ lenEnc 2 p.signature ++ encodeOptTag p.confirmation_tag

/-- Value-level model of `constant_time_eq`: equality of the two byte
strings (the constant-time execution itself is not representable here). -/
def constant_time_eq (a b : Bytes) : Bool := a == b

/-- `MLSPlaintext::verify_membership_tag` from messages.cpp.
`hmac key msg` stands for `suite.get().digest.hmac(key, msg)` (declared
outside src/). -/
def MLSPlaintext.verify_membership_tag (hmac : Bytes → Bytes → Bytes)
    (p : MLSPlaintext) (context mac_key : Bytes) : Bool :=
  if p.decrypted then true
  else
    match p.membership_tag with
    | none => false
    | some tag =>
      constant_time_eq (hmac mac_key (p.membership_tag_input context)) tag

/-- `MLSPlaintext::set_membership_tag` from messages.cpp. -/
def MLSPlaintext.set_membership_tag (hmac : Bytes → Bytes → Bytes)
    (p : MLSPlaintext) (context mac_key : Bytes) : MLSPlaintext :=
  { p with membership_tag := some (hmac mac_key (p.membership_tag_input context)) }

/-! ### Concrete primitive instances

Small executable instantiations of the abstract primitives, used to
evaluate the theorems on concrete inputs. -/

/-- A concrete KDF instance for evaluation. -/
def demoKDF : KDF :=
  { extract := fun salt ikm => salt ++ ikm
    expand := fun prk info L => List.replicate L ((prk.length + info.length) % 256)
    hash_size := 2 }

/-- A concrete AEAD instance for evaluation. -/
def demoAEAD : AEAD :=
  { key_size := 2
    nonce_size := 2
    sealAead := fun key nonce aad pt => key ++ nonce ++ aad ++ pt
    openAead := fun _ _ _ ct => some ct }

/-- A concrete HPKE instance for evaluation. -/
def demoHPKE : HPKE := { suite := suite_id 32 1 3, kdf := demoKDF, aead := demoAEAD }

/-- A concrete freshly-constructed context for evaluation. -/
def demoCtx : Context := Context.make [1] [2] [3, 4] [5] demoKDF demoAEAD

/-- The demo context with the sequence counter at the overflow bound. -/
def demoCtxMax : Context := { demoCtx with seq := uint64Max }

/-- A concrete HMAC stand-in for evaluation. -/
def demoHmac (key msg : Bytes) : Bytes := key ++ [255] ++ msg

/-! ### Helper lemmas -/

/-- A successful counter step: below the bound, `increment_seq` only bumps
`seq`. -/
theorem increment_seq_ok (c : Context) (h : c.seq ≠ uint64Max) :
    c.increment_seq = .ok { c with seq := c.seq + 1 } := by
  simp [Context.increment_seq, h]

/-- Iterating `seal` while the counter stays within the `uint64` range
advances `seq` by the number of calls and changes nothing else. -/
theorem sealIter_seq (aad pt : Bytes) (n : Nat) :
    ∀ c : Context, c.seq + n ≤ uint64Max →
      sealIter aad pt n c = .ok { c with seq := c.seq + n } := by
  induction n with
  | zero => intro c _; simp [sealIter]
  | succ n ih =>
    intro c h
    have hne : c.seq ≠ uint64Max := by
      rw [uint64Max_lit] at h ⊢; omega
    have hstep := increment_seq_ok c hne
    have ih' := ih { c with seq := c.seq + 1 }
      (by simpa [Nat.add_assoc, Nat.add_comm 1 n] using h)
    simp only [sealIter, Context.sealMsg, hstep]
    rw [ih']
    simp [Nat.add_assoc, Nat.add_comm 1 n]

/-! ### Claim theorems: HPKE -/

/-- C1: for every mode, shared secret, info, psk and psk_id accepted by PSK
validation, `HPKE::key_schedule` succeeds and returns a context whose key,
nonce base and exporter secret are exactly the spec's
labeled-extract/labeled-expand formulas over
`ks_context = mode_byte || psk_id_hash || info_hash`. -/
theorem key_schedule_matches_spec (h : HPKE) (mode : Mode)
    (shared_secret info psk psk_id : Bytes)
    (hv : HPKE.verify_psk_inputs mode psk psk_id = true) :
    ∃ c : Context,
      h.key_schedule mode shared_secret info psk psk_id = .ok c
      ∧ c.key = SpecKS.key h mode shared_secret info psk psk_id
      ∧ c.nonce = SpecKS.nonceBase h mode shared_secret info psk psk_id
      ∧ c.exporter_secret = SpecKS.exporterSecret h mode shared_secret info psk psk_id
      ∧ c.suite = h.suite ∧ c.seq = 0 := by
  simp only [HPKE.key_schedule, hv, Bool.not_true, Bool.false_eq_true, if_false]
  exact ⟨_, rfl, rfl, rfl, rfl, rfl, rfl⟩

/-- Witness: the key-schedule theorem evaluated at mode base with empty PSK
inputs on the concrete demo suite. -/
theorem key_schedule_matches_spec_witness :
    HPKE.verify_psk_inputs Mode.base [] [] = true ∧
      ∃ c : Context,
        demoHPKE.key_schedule Mode.base [6] [7] [] [] = .ok c
        ∧ c.key = SpecKS.key demoHPKE Mode.base [6] [7] [] []
        ∧ c.nonce = SpecKS.nonceBase demoHPKE Mode.base [6] [7] [] []
        ∧ c.exporter_secret = SpecKS.exporterSecret demoHPKE Mode.base [6] [7] [] []
        ∧ c.suite = demoHPKE.suite ∧ c.seq = 0 :=
  ⟨by decide, key_schedule_matches_spec demoHPKE Mode.base [6] [7] [] [] (by decide)⟩

/-- C2: `current_nonce` at counter value `seq` equals
`i2osp(seq, nonce_size) XOR nonce_base`; a freshly constructed context has
`seq = 0`, and after `n` successful seals the context uses the nonce
`i2osp(n, nonce_size) XOR nonce_base` — the strictly ordered nonce stream. -/
theorem nonce_sequence (c : Context) (suite key nonce es : Bytes) (kdf : KDF)
    (aead : AEAD) (aad pt : Bytes) (n : Nat) (hn : n ≤ uint64Max) :
    c.current_nonce = xorBytes (i2osp c.seq c.aead.nonce_size) c.nonce
    ∧ (Context.make suite key nonce es kdf aead).seq = 0
    ∧ sealIter aad pt n (Context.make suite key nonce es kdf aead) =
        .ok { Context.make suite key nonce es kdf aead with seq := n }
    ∧ ({ Context.make suite key nonce es kdf aead with seq := n } : Context).current_nonce
        = xorBytes (i2osp n aead.nonce_size) nonce := by
  refine ⟨rfl, rfl, ?_, rfl⟩
  have h := sealIter_seq aad pt n (Context.make suite key nonce es kdf aead)
    (by simpa [Context.make] using hn)
  simpa [Context.make] using h

/-- Witness: the nonce-sequence theorem after three seals on the concrete
demo context. -/
theorem nonce_sequence_witness :
    3 ≤ uint64Max ∧
      (demoCtx.current_nonce = xorBytes (i2osp demoCtx.seq demoCtx.aead.nonce_size) demoCtx.nonce
      ∧ (Context.make [1] [2] [3, 4] [5] demoKDF demoAEAD).seq = 0
      ∧ sealIter [9] [8] 3 (Context.make [1] [2] [3, 4] [5] demoKDF demoAEAD) =
          .ok { Context.make [1] [2] [3, 4] [5] demoKDF demoAEAD with seq := 3 }
      ∧ ({ Context.make [1] [2] [3, 4] [5] demoKDF demoAEAD with seq := 3 } : Context).current_nonce
          = xorBytes (i2osp 3 demoAEAD.nonce_size) [3, 4]) :=
  ⟨by decide, nonce_sequence demoCtx [1] [2] [3, 4] [5] demoKDF demoAEAD [9] [8] 3 (by decide)⟩

/-- C3: `seal` and `open` fail with `SequenceOverflow` exactly when the
counter at call entry is `2^64 - 1`; on that failure the context (and
hence the counter) is unchanged, so every subsequent `seal` or `open` fails
the same way; and after `2^64 - 1` successful seals the next seal fails. -/
theorem sequence_overflow_fatal (c : Context) (suite key nonce es : Bytes) (kdf : KDF)
    (aead : AEAD) (aad pt ct : Bytes) :
    ((c.sealMsg aad pt).1 = .error .sequenceOverflow ↔ c.seq = uint64Max)
    ∧ ((c.openMsg aad ct).1 = .error .sequenceOverflow ↔ c.seq = uint64Max)
    ∧ (c.seq = uint64Max →
        (c.sealMsg aad pt).2 = c ∧ (c.openMsg aad ct).2 = c
        ∧ ((c.sealMsg aad pt).2.sealMsg aad pt).1 = .error .sequenceOverflow
        ∧ ((c.openMsg aad ct).2.openMsg aad ct).1 = .error .sequenceOverflow)
    ∧ sealIter aad pt uint64Max (Context.make suite key nonce es kdf aead) =
        .ok { Context.make suite key nonce es kdf aead with seq := uint64Max }
    ∧ (∀ c', sealIter aad pt uint64Max (Context.make suite key nonce es kdf aead) = .ok c' →
        (c'.sealMsg aad pt).1 = .error .sequenceOverflow) := by
  have hiter : sealIter aad pt uint64Max (Context.make suite key nonce es kdf aead) =
      .ok { Context.make suite key nonce es kdf aead with seq := uint64Max } := by
    simpa [Context.make] using
      sealIter_seq aad pt uint64Max (Context.make suite key nonce es kdf aead)
        (by simp [Context.make])
  have hseal : ∀ d : Context,
      (d.sealMsg aad pt).1 = .error .sequenceOverflow ↔ d.seq = uint64Max := by
    intro d
    by_cases h : d.seq = uint64Max <;> simp [Context.sealMsg, Context.increment_seq, h]
  have hopen : ∀ d : Context,
      (d.openMsg aad ct).1 = .error .sequenceOverflow ↔ d.seq = uint64Max := by
    intro d
    by_cases h : d.seq = uint64Max <;> simp [Context.openMsg, Context.increment_seq, h]
  have hunch : ∀ d : Context, d.seq = uint64Max →
      (d.sealMsg aad pt).2 = d ∧ (d.openMsg aad ct).2 = d := by
    intro d h
    constructor <;> simp [Context.sealMsg, Context.openMsg, Context.increment_seq, h]
  refine ⟨hseal c, hopen c, ?_, hiter, ?_⟩
  · intro h
    refine ⟨(hunch c h).1, (hunch c h).2, ?_, ?_⟩
    · rw [(hunch c h).1]; exact (hseal c).mpr h
    · rw [(hunch c h).2]; exact (hopen c).mpr h
  · intro c' hc'
    rw [hiter] at hc'
    have h := Except.ok.inj hc'
    apply (hseal c').mpr
    rw [← h]

/-- Witness: the overflow theorem on the demo context whose counter sits at
`2^64 - 1`: its seal fails, the state is unchanged, and the next seal fails
again. -/
theorem sequence_overflow_fatal_witness :
    demoCtxMax.seq = uint64Max ∧
      (demoCtxMax.sealMsg [0] [1]).1 = .error .sequenceOverflow ∧
      (demoCtxMax.sealMsg [0] [1]).2 = demoCtxMax ∧
      ((demoCtxMax.sealMsg [0] [1]).2.sealMsg [0] [1]).1 = .error .sequenceOverflow := by
  have h := sequence_overflow_fatal demoCtxMax [1] [2] [3] [4] demoKDF demoAEAD [0] [1] [2]
  exact ⟨rfl, h.1.mpr rfl, (h.2.2.1 rfl).1, (h.2.2.1 rfl).2.2.1⟩

/-- C9: below the overflow bound, `open` and `seal` advance the sequence
counter by exactly one — also when the AEAD open returns absence, which is
passed through unchanged — and leave the suite, key, nonce base and
exporter secret untouched. -/
theorem seal_open_frame (c : Context) (aad pt ct : Bytes) (h : c.seq < uint64Max) :
    (c.openMsg aad ct).2 = { c with seq := c.seq + 1 }
    ∧ (c.openMsg aad ct).1 = .ok (c.aead.openAead c.key c.current_nonce aad ct)
    ∧ (c.openMsg aad ct).2.seq = c.seq + 1
    ∧ (c.openMsg aad ct).2.suite = c.suite ∧ (c.openMsg aad ct).2.key = c.key
    ∧ (c.openMsg aad ct).2.nonce = c.nonce
    ∧ (c.openMsg aad ct).2.exporter_secret = c.exporter_secret
    ∧ (c.sealMsg aad pt).2 = { c with seq := c.seq + 1 }
    ∧ (c.sealMsg aad pt).1 = .ok (c.aead.sealAead c.key c.current_nonce aad pt)
    ∧ (c.sealMsg aad pt).2.seq = c.seq + 1
    ∧ (c.sealMsg aad pt).2.suite = c.suite ∧ (c.sealMsg aad pt).2.key = c.key
    ∧ (c.sealMsg aad pt).2.nonce = c.nonce
    ∧ (c.sealMsg aad pt).2.exporter_secret = c.exporter_secret := by
  have hne : c.seq ≠ uint64Max := Nat.ne_of_lt h
  simp [Context.openMsg, Context.sealMsg, Context.increment_seq, hne]

/-- Witness: the frame theorem on the fresh demo context, whose `open`
returns a value and whose counter advances from 0 to 1. -/
theorem seal_open_frame_witness :
    demoCtx.seq < uint64Max ∧
      (demoCtx.openMsg [0] [1]).2 = { demoCtx with seq := demoCtx.seq + 1 } ∧
      (demoCtx.sealMsg [0] [1]).2.seq = demoCtx.seq + 1 := by
  have h := seal_open_frame demoCtx [0] [1] [1] (by decide)
  exact ⟨by decide, h.1, h.2.2.2.2.2.2.2.2.2.1⟩

/-- C5: `verify_psk_inputs` accepts exactly the mode/emptiness table of the
spec — base and auth with both psk and psk_id empty, psk and auth_psk with
both non-empty — and whenever it rejects, the key schedule fails with
`InvalidPSKInputs`. -/
theorem psk_gating (h : HPKE) (mode : Mode) (psk psk_id shared_secret info : Bytes) :
    (HPKE.verify_psk_inputs mode psk psk_id = true ↔
      ((psk = [] ∧ psk_id = [] ∧ (mode = Mode.base ∨ mode = Mode.auth)) ∨
        (psk ≠ [] ∧ psk_id ≠ [] ∧ (mode = Mode.psk ∨ mode = Mode.auth_psk))))
    ∧ (HPKE.verify_psk_inputs mode psk psk_id = false →
        h.key_schedule mode shared_secret info psk psk_id = .error .invalidPSKInputs) := by
  constructor
  · cases mode <;> rcases psk with _ | ⟨a, as⟩ <;> rcases psk_id with _ | ⟨b, bs⟩ <;>
      simp [HPKE.verify_psk_inputs]
  · intro hv
    simp [HPKE.key_schedule, hv]

/-- Witness: a non-empty psk with an empty psk_id is rejected in psk mode,
and the key schedule fails with `InvalidPSKInputs` there. -/
theorem psk_gating_witness :
    HPKE.verify_psk_inputs Mode.psk [1] [] = false ∧
      demoHPKE.key_schedule Mode.psk [6] [7] [1] [] = .error .invalidPSKInputs :=
  ⟨by decide, (psk_gating demoHPKE Mode.psk [1] [] [6] [7]).2 (by decide)⟩

/-! ### Claim theorems: MLS framing -/

/-- C4: `verify_membership_tag` returns true exactly when `decrypted` is
set or the membership tag is present and equals the recomputed HMAC over
`membership_tag_input`; with `decrypted` unset and no tag it returns false. -/
theorem membership_tag_verification (hmac : Bytes → Bytes → Bytes) (p : MLSPlaintext)
    (context mac_key : Bytes) :
    (MLSPlaintext.verify_membership_tag hmac p context mac_key = true ↔
      (p.decrypted = true ∨
        p.membership_tag = some (hmac mac_key (p.membership_tag_input context))))
    ∧ (p.decrypted = false → p.membership_tag = none →
        MLSPlaintext.verify_membership_tag hmac p context mac_key = false) := by
  constructor
  · cases hd : p.decrypted <;> cases ht : p.membership_tag <;>
      simp [MLSPlaintext.verify_membership_tag, constant_time_eq, hd, ht]
    constructor
    · intro h; exact h.symm
    · intro h; exact h.symm
  · intro hd ht
    simp [MLSPlaintext.verify_membership_tag, hd, ht]

/-- A concrete plaintext for evaluation, marked as AEAD-decrypted. -/
def demoPlaintext : MLSPlaintext :=
  { group_id := [1], epoch := 2, sender := ⟨1, 3⟩, authenticated_data := [4]
    content := MLSContent.application [5], signature := [6]
    confirmation_tag := some [7], membership_tag := none, decrypted := true }

/-- The demo plaintext as a locally framed message: not decrypted, no tag. -/
def demoPlaintextND : MLSPlaintext := { demoPlaintext with decrypted := false }

/-- Witness: the membership-tag theorem on the decrypted demo plaintext
(accepts unconditionally) and on the untagged framed one (rejects). -/
theorem membership_tag_verification_witness :
    MLSPlaintext.verify_membership_tag demoHmac demoPlaintext [9] [8] = true ∧
      MLSPlaintext.verify_membership_tag demoHmac demoPlaintextND [9] [8] = false :=
  ⟨(membership_tag_verification demoHmac demoPlaintext [9] [8]).1.mpr (Or.inl rfl),
    (membership_tag_verification demoHmac demoPlaintextND [9] [8]).2 rfl rfl⟩

/-- C6: `MLSPlaintext::to_be_signed` is the caller-supplied group context
followed by `len1(group_id)`, the fixed-width big-endian epoch and sender,
`len4(authenticated_data)`, and the content encoded as
`tag_byte || tag_payload`. -/
theorem plaintext_to_be_signed_layout (p : MLSPlaintext) (context : Bytes) :
    p.to_be_signed context =
      context ++ (i2osp p.group_id.length 1 ++ p.group_id) ++ i2osp p.epoch 8
        ++ (i2osp p.sender.sender_type 1 ++ i2osp p.sender.sender 4)
        ++ (i2osp p.authenticated_data.length 4 ++ p.authenticated_data)
        ++ (p.content.tag :: p.content.payload) := rfl

/-- A concrete `GroupInfo` for evaluation; leaf 0 carries a key package. -/
def giExtA : GroupInfo :=
  { suite := 1, group_id := [1], epoch := 2, tree := ⟨[3], [some ⟨[4]⟩]⟩
    confirmed_transcript_hash := [5], interim_transcript_hash := [6]
    extensions := [7], confirmation := [8], signer_index := 0, signature := [9] }

/-- `giExtA` with a different extension list and nothing else changed. -/
def giExtB : GroupInfo := { giExtA with extensions := [7, 7] }

/-- C7 counterexample: two `GroupInfo` values that differ only in
`extensions` produce identical `to_be_signed` bytes, so the signature does
not cover the extensions field. -/
theorem groupinfo_extensions_not_signed :
    giExtA.extensions ≠ giExtB.extensions ∧ giExtA ≠ giExtB ∧
      giExtA.to_be_signed = giExtB.to_be_signed :=
  ⟨by decide, by decide, rfl⟩

/-- A concrete deterministic signing stand-in for evaluation. -/
def demoSigSign (priv : SignaturePrivateKey) (suite : Nat) (msg : Bytes) : Bytes :=
  priv.public_key ++ i2osp suite 1 ++ msg

/-- A concrete verification stand-in matching `demoSigSign`. -/
def demoSigVerify (pub : Bytes) (suite : Nat) (msg sig : Bytes) : Bool :=
  sig == pub ++ i2osp suite 1 ++ msg

/-- C7 amended: the `GroupInfo` signature covers the declared fields in
order except `extensions`: `to_be_signed` is `len1(group_id) || epoch ||
tree || len1(confirmed_transcript_hash) || len1(interim_transcript_hash) ||
len1(confirmation) || signer_index`, it is independent of `extensions`, and
`sign` and `verify` sign and check exactly these bytes. -/
theorem groupinfo_signed_fields (sigSign : SignaturePrivateKey → Nat → Bytes → Bytes)
    (sigVerify : Bytes → Nat → Bytes → Bytes → Bool) (gi : GroupInfo) (ext : Bytes)
    (index : Nat) (priv : SignaturePrivateKey) (kp : KeyPackage) :
    gi.to_be_signed =
      (i2osp gi.group_id.length 1 ++ gi.group_id) ++ i2osp gi.epoch 8 ++ gi.tree.enc
        ++ (i2osp gi.confirmed_transcript_hash.length 1 ++ gi.confirmed_transcript_hash)
        ++ (i2osp gi.interim_transcript_hash.length 1 ++ gi.interim_transcript_hash)
        ++ (i2osp gi.confirmation.length 1 ++ gi.confirmation)
        ++ i2osp gi.signer_index 4
    ∧ ({ gi with extensions := ext } : GroupInfo).to_be_signed = gi.to_be_signed
    ∧ (gi.tree.key_package index = some kp → kp.credential_pub = priv.public_key →
        GroupInfo.signGI sigSign gi index priv =
          .ok { gi with
                signer_index := index
                signature := sigSign priv gi.suite
                  ({ gi with signer_index := index } : GroupInfo).to_be_signed })
    ∧ (gi.tree.key_package gi.signer_index = some kp →
        GroupInfo.verifyGI sigVerify gi =
          .ok (sigVerify kp.credential_pub gi.suite gi.to_be_signed gi.signature)) := by
  refine ⟨rfl, rfl, ?_, ?_⟩
  · intro hkp hcred
    simp [GroupInfo.signGI, hkp, hcred]
  · intro hkp
    simp [GroupInfo.verifyGI, hkp]

/-- Witness: the amended-claim theorem evaluated on the concrete
`GroupInfo`, whose populated leaf 0 makes `verify` run the signature check
over `to_be_signed`. -/
theorem groupinfo_signed_fields_witness :
    giExtA.tree.key_package giExtA.signer_index = some ⟨[4]⟩ ∧
      GroupInfo.verifyGI demoSigVerify giExtA =
        .ok (demoSigVerify (KeyPackage.mk [4]).credential_pub giExtA.suite
          giExtA.to_be_signed giExtA.signature) :=
  ⟨by decide,
    (groupinfo_signed_fields demoSigSign demoSigVerify giExtA [0] 0 ⟨[4]⟩ ⟨[4]⟩).2.2.2
      (by decide)⟩

/-- C10: `GroupInfo::verify` raises `InvalidParameter` when the leaf at
`signer_index` is blank, and returns the boolean signature check of
`to_be_signed` under the leaf credential's public key exactly when that
leaf is populated. -/
theorem groupinfo_verify_blank_leaf (sigVerify : Bytes → Nat → Bytes → Bytes → Bool)
    (gi : GroupInfo) :
    (gi.tree.key_package gi.signer_index = none →
      GroupInfo.verifyGI sigVerify gi = .error .invalidParameter)
    ∧ (∀ kp, gi.tree.key_package gi.signer_index = some kp →
      GroupInfo.verifyGI sigVerify gi =
        .ok (sigVerify kp.credential_pub gi.suite gi.to_be_signed gi.signature)) := by
  constructor
  · intro h; simp [GroupInfo.verifyGI, h]
  · intro kp h; simp [GroupInfo.verifyGI, h]

/-- The concrete `GroupInfo` with its signer leaf blanked. -/
def giBlank : GroupInfo := { giExtA with tree := ⟨[3], [none]⟩ }

/-- Witness: `verify` on the concrete `GroupInfo` with a blank signer leaf
raises `InvalidParameter`. -/
theorem groupinfo_verify_blank_leaf_witness :
    giBlank.tree.key_package giBlank.signer_index = none ∧
      GroupInfo.verifyGI demoSigVerify giBlank = .error .invalidParameter :=
  ⟨by decide, (groupinfo_verify_blank_leaf demoSigVerify giBlank).1 (by decide)⟩

/-- C8: decrypting a `Welcome` built from a `GroupInfo` and an epoch secret
with that same secret succeeds and yields a `GroupInfo` with the same
serialization, because both sides derive the identical `(key, nonce)` pair
via `group_info_key_nonce`; AEAD open is assumed to invert seal and the
codec to round-trip on the sealed bytes. -/
theorem welcome_roundtrip (cs : CipherSuiteOps) (marshalGI : GroupInfo → Bytes)
    (getGI : Bytes → GroupInfo) (epoch_secret : Bytes) (gi : GroupInfo)
    (hInv : ∀ key nonce aad pt,
      cs.aead_open key nonce aad (cs.aead_seal key nonce aad pt) = some pt)
    (hCodec : marshalGI (getGI (marshalGI gi)) = marshalGI gi) :
    (Welcome.make cs marshalGI epoch_secret gi).cipher_suite = cs
    ∧ ∃ gi', Welcome.decrypt getGI (Welcome.make cs marshalGI epoch_secret gi)
        epoch_secret = .ok gi'
      ∧ marshalGI gi' = marshalGI gi := by
  refine ⟨rfl, getGI (marshalGI gi), ?_, hCodec⟩
  simp [Welcome.decrypt, Welcome.make, hInv]

/-- A concrete cipher-suite instance whose AEAD open inverts seal. -/
def demoCS : CipherSuiteOps :=
  { hash_size := 2, key_size := 2, nonce_size := 2
    expand_with_label := fun secret label context L =>
      List.replicate L ((secret.length + label.length + context.length) % 256)
    aead_seal := fun _ _ _ pt => 42 :: pt
    aead_open := fun _ _ _ ct => some ct.tail }

/-- A concrete `tls::marshal` stand-in for evaluation. -/
def demoMarshal (g : GroupInfo) : Bytes := g.group_id

/-- A concrete `tls::get<GroupInfo>` stand-in matching `demoMarshal`. -/
def demoGetGI (b : Bytes) : GroupInfo := { giExtA with group_id := b }

/-- Witness: the Welcome round-trip evaluated on the concrete suite, codec
and `GroupInfo`. -/
theorem welcome_roundtrip_witness :
    (∀ key nonce aad pt,
      demoCS.aead_open key nonce aad (demoCS.aead_seal key nonce aad pt) = some pt)
    ∧ demoMarshal (demoGetGI (demoMarshal giExtA)) = demoMarshal giExtA
    ∧ ((Welcome.make demoCS demoMarshal [1] giExtA).cipher_suite = demoCS
      ∧ ∃ gi', Welcome.decrypt demoGetGI (Welcome.make demoCS demoMarshal [1] giExtA)
          [1] = .ok gi'
        ∧ demoMarshal gi' = demoMarshal giExtA) :=
  ⟨fun _ _ _ _ => rfl, rfl,
    welcome_roundtrip demoCS demoMarshal demoGetGI [1] giExtA (fun _ _ _ _ => rfl) rfl⟩
